import Mathlib

/-!
Verification of the RestMan OpenAPI request console core: the request
payload builder, the poll/sync schedulers, the history buffer, the sidebar
ordering and the response schema table, embedded from the TypeScript
sources (`App.tsx`, `Sidebar.tsx`, `ResponsePanel.tsx`).
-/

/-! ### JavaScript platform primitives

The web runtime functions used by the sources (`encodeURIComponent`,
`URLSearchParams.toString`, `String.prototype.replace` with a string
pattern, `String.prototype.trim`) are modelled byte-faithfully here.
-/

/-- Upper-case hexadecimal digit, as produced by the browser's
percent-encoders. -/
def hexDigitChar (n : Nat) : Char :=
  if n < 10 then Char.ofNat (48 + n) else Char.ofNat (55 + n)

/-- UTF-8 byte sequence of a Unicode code point. -/
def utf8Bytes (n : Nat) : List Nat :=
  if n < 128 then [n]
  else if n < 2048 then [192 + n / 64, 128 + n % 64]
  else if n < 65536 then [224 + n / 4096, 128 + n / 64 % 64, 128 + n % 64]
  else [240 + n / 262144, 128 + n / 4096 % 64, 128 + n / 64 % 64, 128 + n % 64]

/-- One percent-escaped byte, e.g. byte 32 becomes `%20`. -/
def percentByte (b : Nat) : List Char :=
  ['%', hexDigitChar (b / 16), hexDigitChar (b % 16)]

/-- Characters `encodeURIComponent` leaves unescaped:
ASCII alphanumerics and `- _ . ! ~ * ' ( )`. -/
def uriUnreserved (c : Char) : Bool :=
  c.isAlpha || c.isDigit || c = '-' || c = '_' || c = '.' || c = '!' ||
    c = '~' || c = '*' || c = Char.ofNat 39 || c = '(' || c = ')'

/-- The browser's `encodeURIComponent`. -/
def encodeURIComponent (s : String) : String :=
  String.mk (s.data.map (fun c =>
    if uriUnreserved c then [c]
    else ((utf8Bytes c.toNat).map percentByte).flatten)).flatten

/-- Characters the `application/x-www-form-urlencoded` serializer leaves
unescaped (used by `URLSearchParams.toString`): alphanumerics and
`* - . _`; space is handled separately. -/
def formUnreserved (c : Char) : Bool :=
  c.isAlpha || c.isDigit || c = '*' || c = '-' || c = '.' || c = '_'

/-- One character under the `application/x-www-form-urlencoded`
serializer: space becomes `+`, unreserved characters pass through,
everything else is percent-escaped by UTF-8 byte. -/
def formEncodeChar (c : Char) : List Char :=
  if c = ' ' then ['+']
  else if formUnreserved c then [c]
  else ((utf8Bytes c.toNat).map percentByte).flatten

/-- `URLSearchParams` serialization of one string. -/
def formUrlEncode (s : String) : String :=
  String.mk (s.data.map formEncodeChar).flatten

/-- `URLSearchParams.toString()`: entries in insertion order,
`key=value` pairs joined with `&`. -/
def urlSearchParamsToString (q : List (String × String)) : String :=
  String.intercalate "&" (q.map (fun kv => formUrlEncode kv.1 ++ "=" ++ formUrlEncode kv.2))

/-- `String.prototype.replace` with a plain string pattern: only the
first occurrence is replaced; with no occurrence the string is returned
unchanged (list form). -/
def replaceFirstList (pat rep : List Char) : List Char → List Char
  | [] => if pat.isEmpty then rep else []
  | c :: rest =>
    if pat.isPrefixOf (c :: rest) then rep ++ (c :: rest).drop pat.length
    else c :: replaceFirstList pat rep rest

/-- `String.prototype.replace` with a plain string pattern. -/
def jsReplaceFirst (s pat rep : String) : String :=
  String.mk (replaceFirstList pat.data rep.data s.data)

/-- JavaScript whitespace recognised by `String.prototype.trim`
(the code points that can occur in request bodies here). -/
def jsWhitespace (c : Char) : Bool :=
  c = ' ' || c = Char.ofNat 9 || c = Char.ofNat 10 || c = Char.ofNat 11 ||
    c = Char.ofNat 12 || c = Char.ofNat 13 || c = Char.ofNat 160 || c = Char.ofNat 65279

/-- `String.prototype.trim`. -/
def jsTrim (s : String) : String :=
  String.mk (((s.data.dropWhile jsWhitespace).reverse.dropWhile jsWhitespace).reverse)

/-- `String.prototype.includes` with a one-character needle
(`finalUrl.includes("?")`). -/
def jsIncludes (s : String) (c : Char) : Bool :=
  s.data.contains c

/-- Property read on a JavaScript string record (`obj[key]`), with
`undefined` as `none`. -/
def recordGet (m : List (String × String)) (k : String) : Option String :=
  (m.find? (fun kv => kv.1 = k)).map (·.2)

/-- Property write on a JavaScript string record (`obj[key] = v`): an
existing key keeps its slot, a new key is appended. -/
def recordSet (m : List (String × String)) (k v : String) : List (String × String) :=
  if m.any (fun kv => kv.1 = k) then m.map (fun kv => if kv.1 = k then (k, v) else kv)
  else m ++ [(k, v)]

/-! ### Data model (`webui/src/types.ts`) -/

/-- A parameter of an endpoint (`Parameter` in `types.ts`; the `example`
field is kept abstract as an already-formatted string since only its
formatted form flows into drafts). -/
structure Parameter where
  name : String
  in_type : String
  required : Bool := false
  exampleText : String := ""
deriving DecidableEq, Repr

/-- An endpoint (`Endpoint` in `types.ts`, the fields the claims touch). -/
structure Endpoint where
  method : String
  path : String
  summary : String := ""
  description : String := ""
  parameters : List Parameter := []
  body_example : String := ""
deriving DecidableEq, Repr

/-- A request history entry (`HistoryEntry` in `types.ts`). -/
structure HistoryEntry where
  id : String := ""
  created_at : Nat := 0
  method : String
  url : String
  resolved_url : String
  params : List (String × String)
  body : String
  response : String
deriving DecidableEq, Repr

/-- `endpointKey` from `App.tsx`: `method:path`. -/
def endpointKey (endpoint : Endpoint) : String :=
  endpoint.method ++ ":" ++ endpoint.path

/-! ### `buildRequestPayload` (`App.tsx`) -/

/-- The wire-ready request produced by `buildRequestPayload`. -/
structure RequestPayload where
  finalUrl : String
  headers : List (String × String)
  body : Option String
deriving DecidableEq, Repr

/-- Accumulator of the `endpoint.parameters.forEach` loop in
`buildRequestPayload`: the URL being rewritten, the header record and
the `URLSearchParams` entry list. -/
structure PayloadAcc where
  url : String
  headers : List (String × String)
  query : List (String × String)
deriving DecidableEq, Repr

/-- One iteration of the `endpoint.parameters.forEach` loop in
`buildRequestPayload`: absent or empty values are skipped; a path value
replaces the `{name}` placeholder with its `encodeURIComponent` form; a
query value is appended to the `URLSearchParams`; a header value is
written into the header record. -/
def payloadParamStep (params : List (String × String)) (acc : PayloadAcc)
    (param : Parameter) : PayloadAcc :=
  match recordGet params param.name with
  | none => acc
  | some v =>
    if v = "" then acc
    else if param.in_type = "path" then
      { acc with url := jsReplaceFirst acc.url ("\x7b" ++ param.name ++ "\x7d") (encodeURIComponent v) }
    else if param.in_type = "query" then
      { acc with query := acc.query ++ [(param.name, v)] }
    else if param.in_type = "header" then
      { acc with headers := recordSet acc.headers param.name v }
    else acc

/-- `buildRequestPayload` from `App.tsx`: rewrites path placeholders,
collects query and header parameters, appends the serialized query string
when non-empty, and omits the body for `GET` or when it is empty after
trimming. -/
def buildRequestPayload (endpoint : Option Endpoint) (methodInput : String)
    (urlInput : String) (params : List (String × String)) (bodyInput : String) :
    RequestPayload :=
  let acc : PayloadAcc :=
    match endpoint with
    | some e => e.parameters.foldl (payloadParamStep params) ⟨urlInput, [], []⟩
    | none => ⟨urlInput, [], []⟩
  let queryString := urlSearchParamsToString acc.query
  let finalUrl :=
    if queryString = "" then acc.url
    else acc.url ++ (if jsIncludes acc.url '?' then "&" else "?") ++ queryString
  let body := if methodInput ≠ "GET" ∧ 0 < (jsTrim bodyInput).length then some bodyInput else none
  ⟨finalUrl, acc.headers, body⟩

/-! ### History buffer (`App.tsx`) -/

/-- `maxHistoryEntries` from `App.tsx`. -/
def maxHistoryEntries : Nat := 50

/-- `addHistoryEntry` from `App.tsx`:
`setHistory((prev) => [entry, ...prev].slice(0, maxHistoryEntries))`. -/
def addHistoryEntry (entry : HistoryEntry) (prev : List HistoryEntry) : List HistoryEntry :=
  (entry :: prev).take maxHistoryEntries

/-! ### JSON values and the response schema table (`ResponsePanel.tsx`)

OpenAPI schema fragments are loosely-typed JSON trees in the source; they
are modelled as a `Json` variant. `JSON.parse` is a platform collaborator
and is kept abstract (a `parseJson` argument); `JSON.stringify` and the
JavaScript `String(...)` conversion are modelled concretely.
-/

/-- A JSON value as the TypeScript sources see it. -/
inductive Json where
  | null
  | bool (b : Bool)
  | num (n : Int)
  | str (s : String)
  | arr (elems : List Json)
  | obj (fields : List (String × Json))

/-- Property read on a JSON object (`schema[key]`), `undefined` as
`none`. -/
def Json.getField : List (String × Json) → String → Option Json
  | [], _ => none
  | (k, v) :: rest, key => if k = key then some v else Json.getField rest key

/-- A field value is structurally smaller than the field list holding
it (used for termination of the schema walks). -/
theorem Json.sizeOf_getField {fs : List (String × Json)} {k : String} {v : Json}
    (h : Json.getField fs k = some v) : sizeOf v < sizeOf fs := by
  induction fs with
  | nil => simp [Json.getField] at h
  | cons kv rest ih =>
    obtain ⟨k1, v1⟩ := kv
    simp only [Json.getField] at h
    split at h
    · cases h; simp; omega
    · have := ih h; simp; omega

/-- Lower-case hexadecimal digit (for `\uXXXX` escapes). -/
def hexDigitLower (n : Nat) : Char :=
  if n < 10 then Char.ofNat (48 + n) else Char.ofNat (87 + n)

/-- One character under `JSON.stringify` string escaping. -/
def jsonEscapeChar (c : Char) : List Char :=
  if c = Char.ofNat 34 then [Char.ofNat 92, Char.ofNat 34]
  else if c = Char.ofNat 92 then [Char.ofNat 92, Char.ofNat 92]
  else if c = Char.ofNat 8 then [Char.ofNat 92, 'b']
  else if c = Char.ofNat 9 then [Char.ofNat 92, 't']
  else if c = Char.ofNat 10 then [Char.ofNat 92, 'n']
  else if c = Char.ofNat 12 then [Char.ofNat 92, 'f']
  else if c = Char.ofNat 13 then [Char.ofNat 92, 'r']
  else if c.toNat < 32 then
    [Char.ofNat 92, 'u', '0', '0', hexDigitLower (c.toNat / 16), hexDigitLower (c.toNat % 16)]
  else [c]

/-- A `JSON.stringify` string literal. -/
def jsonQuote (s : String) : String :=
  "\"" ++ String.mk (s.data.map jsonEscapeChar).flatten ++ "\""

mutual
/-- Compact `JSON.stringify`. -/
def jsonStringify : Json → String
  | .null => "null"
  | .bool true => "true"
  | .bool false => "false"
  | .num n => toString n
  | .str s => jsonQuote s
  | .arr xs => "[" ++ jsonStringifyList xs ++ "]"
  | .obj fs => "\x7b" ++ jsonStringifyFields fs ++ "\x7d"
/-- `JSON.stringify` of array elements, comma-separated. -/
def jsonStringifyList : List Json → String
  | [] => ""
  | [x] => jsonStringify x
  | x :: y :: rest => jsonStringify x ++ "," ++ jsonStringifyList (y :: rest)
/-- `JSON.stringify` of object members, comma-separated. -/
def jsonStringifyFields : List (String × Json) → String
  | [] => ""
  | [(k, v)] => jsonQuote k ++ ":" ++ jsonStringify v
  | (k, v) :: f :: rest => jsonQuote k ++ ":" ++ jsonStringify v ++ "," ++ jsonStringifyFields (f :: rest)
end

mutual
/-- The JavaScript `String(value)` conversion. -/
def jsToString : Json → String
  | .null => "null"
  | .bool true => "true"
  | .bool false => "false"
  | .num n => toString n
  | .str s => s
  | .arr xs => jsArrayToString xs
  | .obj _ => "[object Object]"
/-- `Array.prototype.toString`: elements joined with commas. -/
def jsArrayToString : List Json → String
  | [] => ""
  | [x] => jsElemToString x
  | x :: y :: rest => jsElemToString x ++ "," ++ jsArrayToString (y :: rest)
/-- An array element under `Array.prototype.toString` (`null` renders
empty). -/
def jsElemToString : Json → String
  | .null => ""
  | .bool b => jsToString (.bool b)
  | .num n => jsToString (.num n)
  | .str s => jsToString (.str s)
  | .arr xs => jsToString (.arr xs)
  | .obj fs => jsToString (.obj fs)
end

/-- The JavaScript nullish-coalescing operator `a ?? b` on field
reads: `undefined` and `null` both fall through to `b`. -/
def jsNullish (a : Option Json) (b : Option Json) : Option Json :=
  match a with
  | none => b
  | some Json.null => b
  | some v => some v

/-- `formatExampleValue` from `ResponsePanel.tsx`: `undefined`/`null`
render empty, strings pass through, numbers and booleans via
`String(...)`, everything else via `JSON.stringify`. -/
def formatExampleValue : Option Json → String
  | none => ""
  | some Json.null => ""
  | some (Json.str s) => s
  | some (Json.num n) => toString n
  | some (Json.bool b) => if b then "true" else "false"
  | some (Json.arr xs) => jsonStringify (Json.arr xs)
  | some (Json.obj fs) => jsonStringify (Json.obj fs)

/-- `Array.isArray(schema[key])`. -/
def isArrayField (fs : List (String × Json)) (key : String) : Bool :=
  match Json.getField fs key with
  | some (Json.arr _) => true
  | _ => false

/-- `schemaTypeLabel` from `ResponsePanel.tsx`. -/
def schemaTypeLabel (fs : List (String × Json)) : String :=
  let typeValue :=
    match Json.getField fs "type" with
    | some (Json.str t) => t
    | _ => ""
  if typeValue = "array" then
    match h : Json.getField fs "items" with
    | some (Json.obj ifs) =>
      let itemType := schemaTypeLabel ifs
      if itemType = "" then "array" else "array<" ++ itemType ++ ">"
    | _ => "array"
  else if typeValue ≠ "" then typeValue
  else if isArrayField fs "enum" then "enum"
  else if (match Json.getField fs "properties" with
           | some (Json.obj _) => true
           | _ => false) then "object"
  else if isArrayField fs "oneOf" then "oneOf"
  else if isArrayField fs "anyOf" then "anyOf"
  else if isArrayField fs "allOf" then "allOf"
  else "object"
termination_by sizeOf fs
decreasing_by
  simp_wf
  have h1 := Json.sizeOf_getField h
  simp at h1
  omega

/-- One row of the response schema table (`SchemaRow` in
`ResponsePanel.tsx`; the source's `example` column is named
`exampleText` since `example` is reserved in Lean). -/
structure SchemaRow where
  path : String
  name : String
  depth : Nat
  type : String
  required : Bool
  description : String
  exampleText : String
  format : String
  enumValues : String
deriving DecidableEq, Repr

/-- The `required` list of a schema: its string entries. -/
def requiredList (fs : List (String × Json)) : List String :=
  match Json.getField fs "required" with
  | some (Json.arr entries) =>
    entries.filterMap (fun j => match j with | Json.str s => some s | _ => none)
  | _ => []

/-- Row path of a property child:
`path === "root" ? root.key : path.key`. -/
def childPath (path key : String) : String :=
  if path = "root" then "root." ++ key else path ++ "." ++ key

/-- Row name: `path === "root" ? "root" : path.split(".").pop() || path`. -/
def rowNameOfPath (path : String) : String :=
  if path = "root" then "root"
  else
    let last := (path.split (fun c => c = '.')).getLastD ""
    if last = "" then path else last

/-- The row `walk` pushes for one schema node in `buildSchemaRows`:
description, example (`schema.example ?? schema.default ?? ""`), format
and enum values read straight off the node. -/
def schemaRowOf (fs : List (String × Json)) (path : String) (depth : Nat)
    (required : Bool) : SchemaRow :=
  { path := path
    name := rowNameOfPath path
    depth := depth
    type := schemaTypeLabel fs
    required := required
    description := match Json.getField fs "description" with | some (Json.str s) => s | _ => ""
    exampleText := formatExampleValue
      (jsNullish (Json.getField fs "example")
        (jsNullish (Json.getField fs "default") (some (Json.str ""))))
    format := match Json.getField fs "format" with | some (Json.str s) => s | _ => ""
    enumValues := match Json.getField fs "enum" with
      | some (Json.arr entries) => String.intercalate ", " (entries.map jsToString)
      | _ => "" }

mutual
/-- The recursive `walk` of `buildSchemaRows`: push the node's row, then
recurse into `properties` children that are schema objects, into `items`
for arrays, and into `oneOf`/`anyOf`/`allOf` entries. -/
def walkRows (fs : List (String × Json)) (path : String) (depth : Nat)
    (required : Bool) : List SchemaRow :=
  let propRows :=
    match hp : Json.getField fs "properties" with
    | some (Json.obj props) => walkProps props (requiredList fs) path depth
    | _ => []
  let itemRows :=
    match Json.getField fs "type" with
    | some (Json.str t) =>
      if t = "array" then
        match hi : Json.getField fs "items" with
        | some (Json.obj ifs) =>
          walkRows ifs (if path = "root" then "root[]" else path ++ "[]") (depth + 1) false
        | _ => []
      else []
    | _ => []
  let compRows :=
    (match hc1 : Json.getField fs "oneOf" with
     | some (Json.arr entries) => walkComp entries "oneOf" path depth 0
     | _ => []) ++
    (match hc2 : Json.getField fs "anyOf" with
     | some (Json.arr entries) => walkComp entries "anyOf" path depth 0
     | _ => []) ++
    (match hc3 : Json.getField fs "allOf" with
     | some (Json.arr entries) => walkComp entries "allOf" path depth 0
     | _ => [])
  schemaRowOf fs path depth required :: (propRows ++ itemRows ++ compRows)
termination_by sizeOf fs
decreasing_by
  all_goals simp_wf
  · have h1 := Json.sizeOf_getField hp; simp at h1; omega
  · have h1 := Json.sizeOf_getField hi; simp at h1; omega
  · have h1 := Json.sizeOf_getField hc1; simp at h1; omega
  · have h1 := Json.sizeOf_getField hc2; simp at h1; omega
  · have h1 := Json.sizeOf_getField hc3; simp at h1; omega

/-- `properties` traversal of `walk`: one recursive call per property
whose value is a schema object, with `required` taken from the parent's
`required` list. -/
def walkProps (props : List (String × Json)) (requiredSet : List String)
    (path : String) (depth : Nat) : List SchemaRow :=
  match props with
  | [] => []
  | (key, value) :: rest =>
    (match value with
     | Json.obj vfs => walkRows vfs (childPath path key) (depth + 1) (requiredSet.contains key)
     | _ => []) ++ walkProps rest requiredSet path depth
termination_by sizeOf props
decreasing_by
  all_goals simp_wf
  all_goals omega

/-- `oneOf`/`anyOf`/`allOf` traversal of `walk`: one recursive call per
entry that is a schema object, paths labelled `(key index)` starting at
1. -/
def walkComp (entries : List Json) (key : String) (path : String)
    (depth : Nat) (idx : Nat) : List SchemaRow :=
  match entries with
  | [] => []
  | entry :: rest =>
    (match entry with
     | Json.obj efs =>
       walkRows efs (path ++ " (" ++ key ++ " " ++ toString (idx + 1) ++ ")") (depth + 1) false
     | _ => []) ++ walkComp rest key path depth (idx + 1)
termination_by sizeOf entries
decreasing_by
  all_goals simp_wf
  all_goals omega
end

/-- `normalizeSchemaInput` from `ResponsePanel.tsx`: a string schema is
fed through `JSON.parse` (kept abstract as `parseJson`), anything else
passes through; a failed parse returns the string itself. -/
def normalizeSchemaInput (parseJson : String → Option Json) (schema : Json) : Json :=
  match schema with
  | Json.str s => match parseJson s with | some j => j | none => Json.str s
  | j => j

/-- `buildSchemaRows` from `ResponsePanel.tsx`: normalize the input,
return no rows unless it is a schema object, else walk it from `root`. -/
def buildSchemaRows (parseJson : String → Option Json) (schemaInput : Json) : List SchemaRow :=
  match normalizeSchemaInput parseJson schemaInput with
  | Json.obj fs => walkRows fs "root" 0 false
  | _ => []

/-! ### Poll scheduler (`runBackgroundRequest` and the `autoRequests`
effect in `App.tsx`)

The interval timers and the async executor are the environment; they are
modelled as events acting on the scheduler state: `tick` is a timer
firing for an endpoint (calling `runBackgroundRequest` up to its `await`),
`complete` is the dispatched request resolving or rejecting (the rest of
`runBackgroundRequest`), `editDraft` is the user editing an endpoint
draft. JavaScript is single-threaded, so each event's handler runs
atomically. `Date.now()`/`Math.random()` in entry ids are platform
nondeterminism and are left at their defaults.
-/

/-- A request draft (`RequestDraft` in `App.tsx`). The platform JSON
formatting of examples (`formatExample` / `formatBodyExample`) is
modelled as pre-applied: `Parameter.exampleText` and
`Endpoint.body_example` hold the already-formatted draft text. -/
structure RequestDraft where
  params : List (String × String)
  body : String
deriving DecidableEq, Repr

/-- `buildDraftFromEndpoint` from `App.tsx`: one entry per declared
parameter holding its (formatted) example, plus the (formatted) body
example. -/
def buildDraftFromEndpoint (endpoint : Endpoint) : RequestDraft :=
  { params := endpoint.parameters.map (fun p => (p.name, p.exampleText))
    body := endpoint.body_example }

/-- The data `runBackgroundRequest` passes to the executor and snapshots
for its history entry: method, endpoint path, resolved URL, and the
dispatch-time parameter/body draft. -/
structure PendingRequest where
  method : String
  path : String
  finalUrl : String
  params : List (String × String)
  body : String
deriving DecidableEq, Repr

/-- Draft resolution in `runBackgroundRequest`:
`draftsRef.current[key] || buildDraftFromEndpoint(endpoint)`. -/
def resolveDraft (drafts : String → Option RequestDraft) (endpoint : Endpoint) : RequestDraft :=
  (drafts (endpointKey endpoint)).getD (buildDraftFromEndpoint endpoint)

/-- The request `runBackgroundRequest` dispatches for an endpoint and a
draft: `buildRequestPayload(endpoint, endpoint.method, endpoint.path,
draft.params, draft.body)`. -/
def dispatchedRequest (endpoint : Endpoint) (draft : RequestDraft) : PendingRequest :=
  let payload := buildRequestPayload (some endpoint) endpoint.method endpoint.path
    draft.params draft.body
  { method := endpoint.method
    path := endpoint.path
    finalUrl := payload.finalUrl
    params := draft.params
    body := draft.body }

/-- Scheduler state: the per-key in-flight flags
(`autoRequestInFlightRef`), the per-key dispatched requests whose
response is outstanding, the per-key drafts (`draftsRef`) and the
history list. -/
structure PollState where
  inFlight : String → Bool
  pending : String → List PendingRequest
  drafts : String → Option RequestDraft
  history : List HistoryEntry

/-- The initial scheduler state: no flags, nothing dispatched, no
drafts, empty history. -/
def pollInit : PollState :=
  { inFlight := fun _ => false
    pending := fun _ => []
    drafts := fun _ => none
    history := [] }

/-- The synchronous prefix of `runBackgroundRequest` run on a timer
tick: if the key's in-flight flag is set return immediately (the tick is
dropped), otherwise set the flag, resolve the draft, build the payload
and dispatch the request. -/
def dispatchRequest (endpoint : Endpoint) (s : PollState) : PollState :=
  let key := endpointKey endpoint
  if s.inFlight key then s
  else
    let req := dispatchedRequest endpoint (resolveDraft s.drafts endpoint)
    { s with
      inFlight := fun k => if k = key then true else s.inFlight k
      pending := fun k => if k = key then s.pending key ++ [req] else s.pending k }

/-- The history entry `runBackgroundRequest` records when the dispatched
request settles: the dispatch-time snapshot plus the raw response, or
`Error: ...` on a transport failure. -/
def completionEntry (req : PendingRequest) (result : Except String String) : HistoryEntry :=
  { method := req.method
    url := req.path
    resolved_url := req.finalUrl
    params := req.params
    body := req.body
    response := match result with
      | .ok res => res
      | .error e => "Error: " ++ e }

/-- The continuation of `runBackgroundRequest` when the awaited request
settles: record the history entry (success and failure alike) and — in
the `finally` block — clear the key's in-flight flag. With nothing
outstanding for the key the event is a no-op. -/
def completeRequest (endpoint : Endpoint) (result : Except String String)
    (s : PollState) : PollState :=
  let key := endpointKey endpoint
  match s.pending key with
  | [] => s
  | req :: rest =>
    { s with
      history := addHistoryEntry (completionEntry req result) s.history
      pending := fun k => if k = key then rest else s.pending k
      inFlight := fun k => if k = key then false else s.inFlight k }

/-- Environment events driving the poll scheduler. -/
inductive PollEvent where
  | tick (endpoint : Endpoint)
  | complete (endpoint : Endpoint) (result : Except String String)
  | editDraft (key : String) (draft : RequestDraft)

/-- One scheduler step. -/
def pollStep (s : PollState) : PollEvent → PollState
  | .tick endpoint => dispatchRequest endpoint s
  | .complete endpoint result => completeRequest endpoint result s
  | .editDraft key draft =>
    { s with drafts := fun k => if k = key then some draft else s.drafts k }

/-- Run of the scheduler over an event list. -/
def pollRun (s : PollState) : List PollEvent → PollState
  | [] => s
  | ev :: evs => pollRun (pollStep s ev) evs

/-- Mutual exclusion shape of the scheduler: for every key, exactly one
request is outstanding when the in-flight flag is set and none
otherwise. -/
def pollMutex (s : PollState) : Prop :=
  ∀ key, (s.pending key).length = (if s.inFlight key then 1 else 0)

/-! ### Sync status and import (`importOpenApi`, the `collection-updated`
listener, `scheduleSyncReset` and `showMessage` in `App.tsx`)

Timeouts are modelled by absolute deadlines stored in the state
(re-scheduling overwrites the old deadline, which models
`clearTimeout`); a timer-fire event is a no-op unless it carries the
currently stored deadline.
-/

/-- `syncStatus` values. -/
inductive SyncStatus where
  | idle
  | syncing
  | updated
deriving DecidableEq, Repr

/-- A collection (`Collection` in `types.ts`). -/
structure Collection where
  name : String
  url : String
  groups : List (String × List Endpoint)
  sync_enabled : Bool := true
deriving DecidableEq, Repr

/-- Property write on a JavaScript record of collections
(`{ ...prev, [col.url]: col }`): an existing key keeps its slot, a new
key is appended. -/
def collectionsSet (m : List (String × Collection)) (k : String) (v : Collection) :
    List (String × Collection) :=
  if m.any (fun kv => kv.1 = k) then m.map (fun kv => if kv.1 = k then (k, v) else kv)
  else m ++ [(k, v)]

/-- `statusResetDelayMs` from `App.tsx`. -/
def statusResetDelayMs : Nat := 4500

/-- `syncResetDelayMs` from `App.tsx`. -/
def syncResetDelayMs : Nat := 3500

/-- `maxOpenApiHistoryEntries` from `App.tsx`. -/
def maxOpenApiHistoryEntries : Nat := 8

/-- The UI session state the sync claims touch (`App.tsx` component
state). -/
structure AppState where
  collections : List (String × Collection)
  openApiUrl : String
  openApiHistory : List String
  lastSyncedAt : Option Nat
  syncStatus : SyncStatus
  statusMessage : String
  isImporting : Bool
  syncTimeout : Option Nat
  statusTimeout : Option Nat
deriving DecidableEq, Repr

/-- `showMessage` from `App.tsx` at wall-clock time `t`: set the status
banner and (re-)arm the reset timer for `statusResetDelayMs` later. -/
def showMessage (s : AppState) (msg : String) (t : Nat) : AppState :=
  { s with statusMessage := msg, statusTimeout := some (t + statusResetDelayMs) }

/-- `scheduleSyncReset` from `App.tsx` at wall-clock time `t`: clear any
pending reset and arm one for `syncResetDelayMs` later. -/
def scheduleSyncReset (s : AppState) (t : Nat) : AppState :=
  { s with syncTimeout := some (t + syncResetDelayMs) }

/-- `updateOpenApiHistory` from `App.tsx`: move the URL to the front,
keep at most `maxOpenApiHistoryEntries`. -/
def updateOpenApiHistory (url : String) (prev : List String) : List String :=
  (url :: prev.filter (fun item => item ≠ url)).take maxOpenApiHistoryEntries

/-- `importOpenApi` from `App.tsx`, run end-to-end at wall-clock time
`t` with `result` standing for the `invoke("import_openapi", ...)`
outcome: an empty trimmed URL only shows a prompt; otherwise the status
goes `syncing`, and on success the collection is stored, the URL history
and `lastSyncedAt` update, the status goes `updated` with a reset
scheduled; on failure only the failure banner is shown and the status
returns to `idle`. -/
def importOpenApi (s : AppState) (result : Except String Collection) (t : Nat) : AppState :=
  let trimmedUrl := jsTrim s.openApiUrl
  if trimmedUrl = "" then showMessage s "Enter an OpenAPI URL to import." t
  else
    let s := { s with syncStatus := SyncStatus.syncing, isImporting := true }
    match result with
    | .ok col =>
      let s := { s with
        collections := collectionsSet s.collections col.url col
        openApiHistory := updateOpenApiHistory trimmedUrl s.openApiHistory
        lastSyncedAt := some t
        syncStatus := SyncStatus.updated }
      let s := scheduleSyncReset s t
      let s := showMessage s ("Imported: " ++ col.name) t
      { s with openApiUrl := "", isImporting := false }
    | .error e =>
      let s := showMessage ({ s with syncStatus := SyncStatus.idle })
        ("Import failed: " ++ e) t
      { s with isImporting := false }

/-- The `collection-updated` event listener from `App.tsx` at wall-clock
time `t`: store the collection, record `lastSyncedAt`, go `updated`,
schedule the reset, show the banner. -/
def collectionUpdatedListener (s : AppState) (col : Collection) (t : Nat) : AppState :=
  let s := { s with
    collections := collectionsSet s.collections col.url col
    lastSyncedAt := some t
    syncStatus := SyncStatus.updated }
  let s := scheduleSyncReset s t
  showMessage s ("Updated: " ++ col.name) t

/-- Environment events driving the sync-status state. -/
inductive AppEvent where
  | importAttempt (result : Except String Collection) (t : Nat)
  | collectionUpdated (col : Collection) (t : Nat)
  | syncTimerFire (t : Nat)
  | statusTimerFire (t : Nat)
  | editOpenApiUrl (url : String)

/-- One step of the sync-status state: the two sync entry points, the
two timers (each a no-op unless its stored deadline matches), and the
URL input field. -/
def appStep (s : AppState) : AppEvent → AppState
  | .importAttempt result t => importOpenApi s result t
  | .collectionUpdated col t => collectionUpdatedListener s col t
  | .syncTimerFire t =>
    if s.syncTimeout = some t then
      { s with syncStatus := SyncStatus.idle, syncTimeout := none }
    else s
  | .statusTimerFire t =>
    if s.statusTimeout = some t then
      { s with statusMessage := "Ready", statusTimeout := none }
    else s
  | .editOpenApiUrl url => { s with openApiUrl := url }

/-- Run of the sync-status state over an event list. -/
def appRun (s : AppState) : List AppEvent → AppState
  | [] => s
  | ev :: evs => appRun (appStep s ev) evs

/-- Events that neither initiate a sync nor fire the sync-reset timer
(banner timer, URL editing): the code paths that leave `syncStatus`
alone. -/
def uiOnlyEvent : AppEvent → Bool
  | .statusTimerFire _ => true
  | .editOpenApiUrl _ => true
  | _ => false

/-! ### Sidebar ordering (`Sidebar.tsx`)

`String.prototype.localeCompare(b, "ko", { numeric: true, sensitivity:
"base" })` is an ICU collation, a platform collaborator: it is kept
abstract as a comparison returning a signed number, as in JavaScript.
`Array.prototype.sort` is a stable comparison sort; it is modelled by
`List.mergeSort` on the comparator's `≤ 0` relation.
-/

/-- `endpointSortKey` from `Sidebar.tsx`:
`(endpoint.summary || endpoint.description || endpoint.path).toLowerCase()`
(absent fields are modelled as empty strings, which JavaScript `||`
treats as falsy). -/
def endpointSortKey (endpoint : Endpoint) : String :=
  (if endpoint.summary ≠ "" then endpoint.summary
   else if endpoint.description ≠ "" then endpoint.description
   else endpoint.path).toLower

/-- `sortByLabel` from `Sidebar.tsx`, parameterized by the ICU
collation `localeCompareKo`. -/
def sortByLabel (localeCompareKo : String → String → Int) (a b : String) : Int :=
  localeCompareKo a b

/-- The comparator-induced order a stable JavaScript sort uses:
`a` may precede `b` when the comparator is non-positive. -/
def sortLE (localeCompareKo : String → String → Int) (a b : String) : Bool :=
  sortByLabel localeCompareKo a b ≤ 0

/-- The endpoint list the Sidebar renders for one group:
`[...endpoints].sort((a, b) => sortByLabel(endpointSortKey(a), endpointSortKey(b)))`. -/
def sortedEndpoints (localeCompareKo : String → String → Int)
    (endpoints : List Endpoint) : List Endpoint :=
  endpoints.mergeSort (fun a b => sortLE localeCompareKo (endpointSortKey a) (endpointSortKey b))

/-- The group list the Sidebar renders for one collection:
`Object.entries(collection.groups).sort(([tagA], [tagB]) => sortByLabel(tagA, tagB))`. -/
def sortedGroupEntries (localeCompareKo : String → String → Int)
    (groups : List (String × List Endpoint)) : List (String × List Endpoint) :=
  groups.mergeSort (fun a b => sortLE localeCompareKo a.1 b.1)

/-! ### Sample values used by witnesses -/

/-- The `id` path parameter of the Petstore example. -/
def petIdParam : Parameter :=
  { name := "id", in_type := "path", required := true }

/-- The `GET /pets/{id}` endpoint of the Petstore example. -/
def petEndpoint : Endpoint :=
  { method := "GET", path := "/pets/\x7bid\x7d", parameters := [petIdParam] }

/-- A parameterless endpoint used to drive the poll scheduler. -/
def pingEndpoint : Endpoint :=
  { method := "GET", path := "/ping" }

/-- A sample history entry. -/
def sampleEntry : HistoryEntry :=
  { method := "GET", url := "/a", resolved_url := "/a", params := [], body := "", response := "ok" }

/-- A sample imported collection. -/
def sampleCollection : Collection :=
  { name := "Petstore", url := "https://example.test/openapi.json", groups := [] }

/-- The session state right after mount. -/
def initialAppState : AppState :=
  { collections := []
    openApiUrl := ""
    openApiHistory := []
    lastSyncedAt := none
    syncStatus := SyncStatus.idle
    statusMessage := "Ready"
    isImporting := false
    syncTimeout := none
    statusTimeout := none }

/-- A schema node declaring both an `example` (the JSON literal `null`)
and a `default`. -/
def exampleNullSchema : List (String × Json) :=
  [("example", Json.null), ("default", Json.str "fallback")]

/-- Spec-side characterization for the query-parameter claim: the
declared parameters, in declaration order, restricted to query
parameters whose supplied value is present and non-empty. -/
def declaredQuerySuffix (params : List (String × String)) (ps : List Parameter) :
    List (String × String) :=
  ps.filterMap (fun p =>
    match recordGet params p.name with
    | some v => if v ≠ "" ∧ p.in_type = "query" then some (p.name, v) else none
    | none => none)

/-! ### Helper lemmas -/

theorem string_ne_empty_iff_length_pos (s : String) : 0 < s.length ↔ s ≠ "" := by
  obtain ⟨data⟩ := s
  cases data <;> simp [String.length, String.ext_iff]

theorem payloadParamStep_query (params : List (String × String)) (acc : PayloadAcc)
    (p : Parameter) :
    (payloadParamStep params acc p).query = acc.query ++
      (match recordGet params p.name with
       | some v => if v ≠ "" ∧ p.in_type = "query" then [(p.name, v)] else []
       | none => []) := by
  unfold payloadParamStep
  cases h : recordGet params p.name with
  | none => simp
  | some v =>
    by_cases hv : v = ""
    · subst hv; simp
    · by_cases hq : p.in_type = "query"
      · have : p.in_type ≠ "path" := by simp [hq]
        simp [hv, hq, this]
      · by_cases hp : p.in_type = "path"
        · simp [hv, hp, hq]
        · by_cases hh : p.in_type = "header" <;> simp [hv, hp, hq, hh]

theorem foldl_payloadParamStep_query (params : List (String × String))
    (ps : List Parameter) (acc : PayloadAcc) :
    (ps.foldl (payloadParamStep params) acc).query =
      acc.query ++ declaredQuerySuffix params ps := by
  induction ps generalizing acc with
  | nil => simp [declaredQuerySuffix]
  | cons p rest ih =>
    rw [List.foldl_cons, ih]
    rw [payloadParamStep_query]
    simp only [declaredQuerySuffix, List.filterMap_cons]
    cases h : recordGet params p.name with
    | none => simp
    | some v =>
      by_cases hc : v ≠ "" ∧ p.in_type = "query" <;> simp [hc, declaredQuerySuffix]

/-! ### Claim theorems -/

/-- C1: in `buildRequestPayload`, a path parameter with a non-empty
supplied value replaces the `{name}` placeholder in the URL with the
percent-encoded (`encodeURIComponent`) value; an absent or empty value
leaves the URL — and hence the placeholder — untouched; concretely,
`id = "7 "` on `/pets/{id}` yields `/pets/7%20` and, with no query
parameters supplied, the final URL contains no `?` at all. -/
theorem path_param_placeholder_substitution
    (params : List (String × String)) (p : Parameter) (acc : PayloadAcc)
    (hpath : p.in_type = "path") :
    (∀ v, recordGet params p.name = some v → v ≠ "" →
      payloadParamStep params acc p =
        { acc with url := jsReplaceFirst acc.url ("\x7b" ++ p.name ++ "\x7d") (encodeURIComponent v) }) ∧
    ((recordGet params p.name = none ∨ recordGet params p.name = some "") →
      payloadParamStep params acc p = acc) ∧
    buildRequestPayload (some petEndpoint) "GET" petEndpoint.path [("id", "7 ")] "" =
      { finalUrl := "/pets/7%20", headers := [], body := none } ∧
    jsIncludes (buildRequestPayload (some petEndpoint) "GET" petEndpoint.path
        [("id", "7 ")] "").finalUrl '?' = false := by
  refine ⟨?_, ?_, by decide, by decide⟩
  · intro v hv hne
    unfold payloadParamStep
    rw [hv]
    simp [hne, hpath]
  · rintro (hv | hv) <;> (unfold payloadParamStep; rw [hv]) <;> simp

/-- C1 witness: the substitution equation and the skip equation of
`path_param_placeholder_substitution` evaluated at the Petstore
endpoint with value `"7 "` and with the value absent. -/
theorem path_param_placeholder_substitution_witness :
    payloadParamStep [("id", "7 ")] ⟨"/pets/\x7bid\x7d", [], []⟩ petIdParam =
      ⟨jsReplaceFirst "/pets/\x7bid\x7d" ("\x7b" ++ "id" ++ "\x7d") (encodeURIComponent "7 "),
        [], []⟩ ∧
    payloadParamStep [] ⟨"/pets/\x7bid\x7d", [], []⟩ petIdParam =
      ⟨"/pets/\x7bid\x7d", [], []⟩ ∧
    buildRequestPayload (some petEndpoint) "GET" petEndpoint.path [("id", "7 ")] "" =
      { finalUrl := "/pets/7%20", headers := [], body := none } := by
  refine ⟨?_, ?_,
    (path_param_placeholder_substitution [("id", "7 ")] petIdParam
      ⟨"/pets/\x7bid\x7d", [], []⟩ rfl).2.2.1⟩
  · exact (path_param_placeholder_substitution [("id", "7 ")] petIdParam
      ⟨"/pets/\x7bid\x7d", [], []⟩ rfl).1 "7 " rfl (by decide)
  · exact (path_param_placeholder_substitution [] petIdParam
      ⟨"/pets/\x7bid\x7d", [], []⟩ rfl).2.1 (Or.inl rfl)

/-- C3: the query entries `buildRequestPayload` accumulates are exactly
the declared query parameters in declaration order whose supplied value
is present and non-empty (empty/absent values contribute nothing); they
are serialized percent-encoded (`application/x-www-form-urlencoded`,
key and value each encoded) and appended to the URL, and with no
surviving query parameter the URL gains no suffix. -/
theorem query_params_declaration_order
    (e : Endpoint) (params : List (String × String))
    (methodInput urlInput bodyInput : String) :
    (e.parameters.foldl (payloadParamStep params) ⟨urlInput, [], []⟩).query =
      declaredQuerySuffix params e.parameters ∧
    (∀ q : List (String × String), urlSearchParamsToString q =
      String.intercalate "&" (q.map (fun kv => formUrlEncode kv.1 ++ "=" ++ formUrlEncode kv.2))) ∧
    (buildRequestPayload (some e) methodInput urlInput params bodyInput).finalUrl =
      (let acc := e.parameters.foldl (payloadParamStep params) ⟨urlInput, [], []⟩
       let queryString := urlSearchParamsToString (declaredQuerySuffix params e.parameters)
       if queryString = "" then acc.url
       else acc.url ++ (if jsIncludes acc.url '?' then "&" else "?") ++ queryString) ∧
    (declaredQuerySuffix params e.parameters = [] →
      (buildRequestPayload (some e) methodInput urlInput params bodyInput).finalUrl =
        (e.parameters.foldl (payloadParamStep params) ⟨urlInput, [], []⟩).url) := by
  have hq := foldl_payloadParamStep_query params e.parameters ⟨urlInput, [], []⟩
  simp only [List.nil_append] at hq
  refine ⟨hq, fun q => rfl, ?_, ?_⟩
  · simp only [buildRequestPayload, hq]
  · intro hempty
    simp only [buildRequestPayload, hq, hempty]
    have hz : urlSearchParamsToString ([] : List (String × String)) = "" := rfl
    rw [hz]
    simp

/-- C3 witness: two declared query parameters, the second supplied
empty: only the first survives, percent-encoded in declaration order. -/
theorem query_params_declaration_order_witness :
    (buildRequestPayload
      (some { method := "GET", path := "/x",
              parameters := [{ name := "q", in_type := "query" },
                             { name := "r", in_type := "query" }] })
      "GET" "/x" [("q", "a b"), ("r", "")] "").finalUrl = "/x?q=a+b" := by
  have h := (query_params_declaration_order
    { method := "GET", path := "/x",
      parameters := [{ name := "q", in_type := "query" },
                     { name := "r", in_type := "query" }] }
    [("q", "a b"), ("r", "")] "GET" "/x" "").2.2.1
  rw [h]
  decide

/-- C4: the body `buildRequestPayload` hands to the executor is the raw
body string, passed through unchanged, unless the method is `GET` or
the body is empty after trimming, in which cases the body is omitted
entirely (`null`). -/
theorem json_body_passthrough (endpoint : Option Endpoint)
    (methodInput urlInput bodyInput : String) (params : List (String × String)) :
    (buildRequestPayload endpoint methodInput urlInput params bodyInput).body =
      if methodInput ≠ "GET" ∧ jsTrim bodyInput ≠ "" then some bodyInput else none := by
  have hiff : (methodInput ≠ "GET" ∧ 0 < (jsTrim bodyInput).length) ↔
      (methodInput ≠ "GET" ∧ jsTrim bodyInput ≠ "") :=
    and_congr_right fun _ => string_ne_empty_iff_length_pos _
  simp only [buildRequestPayload]
  rw [if_congr hiff rfl rfl]

/-- C10: after every insertion via `addHistoryEntry` the history holds
at most `maxHistoryEntries` (50) entries and the new entry is first
(newest-first); inserting into a full history drops exactly the oldest
(last) entry. -/
theorem history_bounded_newest_first (entry : HistoryEntry) (prev : List HistoryEntry) :
    (addHistoryEntry entry prev).length ≤ maxHistoryEntries ∧
    (addHistoryEntry entry prev).head? = some entry ∧
    (prev.length = maxHistoryEntries →
      addHistoryEntry entry prev = entry :: prev.dropLast) := by
  refine ⟨?_, ?_, ?_⟩
  · simpa [addHistoryEntry] using List.length_take_le maxHistoryEntries (entry :: prev)
  · show ((entry :: prev).take maxHistoryEntries).head? = some entry
    rw [show maxHistoryEntries = 49 + 1 from rfl, List.take_succ_cons]
    rfl
  · intro hfull
    show (entry :: prev).take maxHistoryEntries = entry :: prev.dropLast
    rw [show maxHistoryEntries = 49 + 1 from rfl, List.take_succ_cons,
      List.dropLast_eq_take, hfull]
    rfl

/-- C10 witness: inserting into a full history of 50 entries keeps the
new entry first and drops the oldest. -/
theorem history_bounded_newest_first_witness :
    addHistoryEntry sampleEntry (List.replicate maxHistoryEntries sampleEntry) =
      sampleEntry :: (List.replicate maxHistoryEntries sampleEntry).dropLast :=
  (history_bounded_newest_first sampleEntry
    (List.replicate maxHistoryEntries sampleEntry)).2.2 (by simp)

/-- The mutual-exclusion invariant holds initially. -/
theorem pollMutex_init : pollMutex pollInit := by
  intro k
  simp [pollInit]

/-- Every scheduler step preserves the mutual-exclusion invariant. -/
theorem pollMutex_step (s : PollState) (ev : PollEvent) (h : pollMutex s) :
    pollMutex (pollStep s ev) := by
  cases ev with
  | tick endpoint =>
    intro k
    simp only [pollStep, dispatchRequest]
    by_cases hf : s.inFlight (endpointKey endpoint) = true
    · simp [hf, h k]
    · simp only [Bool.not_eq_true] at hf
      have hzero : s.pending (endpointKey endpoint) = [] := by
        have hlen := h (endpointKey endpoint)
        rw [hf] at hlen
        simpa using hlen
      by_cases hk : k = endpointKey endpoint
      · subst hk
        simp [hf, hzero]
      · simp [hf, hk, h k]
  | complete endpoint result =>
    intro k
    cases hp : s.pending (endpointKey endpoint) with
    | nil =>
      simp only [pollStep, completeRequest, hp]
      simpa using h k
    | cons req rest =>
      have hlen := h (endpointKey endpoint)
      rw [hp] at hlen
      have hflag : s.inFlight (endpointKey endpoint) = true := by
        by_contra hc
        simp only [Bool.not_eq_true] at hc
        rw [hc] at hlen
        simp at hlen
      have hrest : rest = [] := by
        rw [hflag] at hlen
        simpa using hlen
      simp only [pollStep, completeRequest, hp]
      by_cases hk : k = endpointKey endpoint
      · subst hk
        simp [hrest]
      · simp [hk, h k]
  | editDraft key draft =>
    intro k
    simpa using h k

/-- The mutual-exclusion invariant holds in every reachable state. -/
theorem pollMutex_run (evs : List PollEvent) (s : PollState) (h : pollMutex s) :
    pollMutex (pollRun s evs) := by
  induction evs generalizing s with
  | nil => exact h
  | cons ev evs ih => exact ih _ (pollMutex_step s ev h)

/-- C2: at most one background request per endpoint key is ever in
flight: in every state the scheduler can reach, the key has at most one
outstanding dispatched request, and a timer tick arriving while the
key's previous request has not completed leaves the state exactly
unchanged — the tick is dropped, neither queued nor coalesced. -/
theorem poll_no_overlapping_dispatch (evs : List PollEvent) (endpoint : Endpoint) :
    ((pollRun pollInit evs).pending (endpointKey endpoint)).length ≤ 1 ∧
    ((pollRun pollInit evs).inFlight (endpointKey endpoint) = true →
      pollStep (pollRun pollInit evs) (PollEvent.tick endpoint) = pollRun pollInit evs) := by
  have hm := pollMutex_run evs pollInit pollMutex_init
  constructor
  · have := hm (endpointKey endpoint)
    split at this <;> omega
  · intro hf
    simp [pollStep, dispatchRequest, hf]

/-- C2 witness: after one tick the request is in flight, and a second
tick before completion changes nothing. -/
theorem poll_no_overlapping_dispatch_witness :
    pollStep (pollRun pollInit [PollEvent.tick pingEndpoint]) (PollEvent.tick pingEndpoint) =
      pollRun pollInit [PollEvent.tick pingEndpoint] ∧
    ((pollRun pollInit [PollEvent.tick pingEndpoint]).pending (endpointKey pingEndpoint)).length ≤ 1 :=
  ⟨(poll_no_overlapping_dispatch [PollEvent.tick pingEndpoint] pingEndpoint).2 (by decide),
   (poll_no_overlapping_dispatch [PollEvent.tick pingEndpoint] pingEndpoint).1⟩

/-- C5: a tick that dispatches snapshots the draft at dispatch time into
the outstanding request; when that request settles — success or
transport failure alike — a history entry is recorded capturing the
method, the endpoint path, the resolved URL, the dispatch-time
parameter/body snapshot and the raw response or the formatted
`Error: ...` string; the in-flight flag is always cleared, so the next
tick for the key dispatches again. -/
theorem poll_completion_recorded (evs : List PollEvent) (endpoint : Endpoint)
    (result : Except String String) (req : PendingRequest) (rest : List PendingRequest)
    (hp : (pollRun pollInit evs).pending (endpointKey endpoint) = req :: rest) :
    (pollStep (pollRun pollInit evs) (PollEvent.complete endpoint result)).history =
      addHistoryEntry (completionEntry req result) (pollRun pollInit evs).history ∧
    (completionEntry req result).method = req.method ∧
    (completionEntry req result).url = req.path ∧
    (completionEntry req result).resolved_url = req.finalUrl ∧
    (completionEntry req result).params = req.params ∧
    (completionEntry req result).body = req.body ∧
    (completionEntry req result).response =
      (match result with | Except.ok res => res | Except.error e => "Error: " ++ e) ∧
    (pollStep (pollRun pollInit evs) (PollEvent.complete endpoint result)).inFlight
      (endpointKey endpoint) = false ∧
    (pollStep (pollStep (pollRun pollInit evs) (PollEvent.complete endpoint result))
      (PollEvent.tick endpoint)).inFlight (endpointKey endpoint) = true ∧
    (∀ s0 : PollState, s0.inFlight (endpointKey endpoint) = false →
      (pollStep s0 (PollEvent.tick endpoint)).pending (endpointKey endpoint) =
        s0.pending (endpointKey endpoint) ++
          [dispatchedRequest endpoint (resolveDraft s0.drafts endpoint)]) := by
  refine ⟨?_, rfl, rfl, rfl, rfl, rfl, rfl, ?_, ?_, ?_⟩
  · simp [pollStep, completeRequest, hp]
  · simp [pollStep, completeRequest, hp]
  · simp [pollStep, completeRequest, hp, dispatchRequest]
  · intro s0 h0
    simp [pollStep, dispatchRequest, h0]

/-- C5 witness: a tick then a transport failure for the ping endpoint
records the formatted error entry and clears the flag. -/
theorem poll_completion_recorded_witness :
    (pollStep (pollRun pollInit [PollEvent.tick pingEndpoint])
        (PollEvent.complete pingEndpoint (Except.error "boom"))).history =
      addHistoryEntry
        (completionEntry
          { method := "GET", path := "/ping", finalUrl := "/ping", params := [], body := "" }
          (Except.error "boom"))
        (pollRun pollInit [PollEvent.tick pingEndpoint]).history ∧
    (pollStep (pollRun pollInit [PollEvent.tick pingEndpoint])
        (PollEvent.complete pingEndpoint (Except.error "boom"))).inFlight
      (endpointKey pingEndpoint) = false := by
  have h := poll_completion_recorded [PollEvent.tick pingEndpoint] pingEndpoint
    (Except.error "boom")
    { method := "GET", path := "/ping", finalUrl := "/ping", params := [], body := "" }
    [] (by decide)
  exact ⟨h.1, h.2.2.2.2.2.2.2.1⟩

/-- C6: a failing import (`invoke("import_openapi", ...)` rejects)
aborts atomically: the collections map is left exactly as it was — no
partial Collection is committed — the failure is surfaced as an
`Import failed: ...` status message, the sync status returns to `idle`,
and the importing flag clears. -/
theorem import_failure_atomic (s : AppState) (e : String) (t : Nat)
    (h : jsTrim s.openApiUrl ≠ "") :
    (importOpenApi s (Except.error e) t).collections = s.collections ∧
    (importOpenApi s (Except.error e) t).openApiHistory = s.openApiHistory ∧
    (importOpenApi s (Except.error e) t).statusMessage = "Import failed: " ++ e ∧
    (importOpenApi s (Except.error e) t).syncStatus = SyncStatus.idle ∧
    (importOpenApi s (Except.error e) t).isImporting = false := by
  simp only [importOpenApi]
  rw [if_neg h]
  simp [showMessage]

/-- C6 witness: a failing import into the fresh session with a
non-empty URL leaves the (empty) collections untouched and lands on the
failure banner in `idle`. -/
theorem import_failure_atomic_witness :
    (importOpenApi { initialAppState with openApiUrl := "https://u" }
        (Except.error "404") 5).collections = initialAppState.collections ∧
    (importOpenApi { initialAppState with openApiUrl := "https://u" }
        (Except.error "404") 5).statusMessage = "Import failed: " ++ "404" ∧
    (importOpenApi { initialAppState with openApiUrl := "https://u" }
        (Except.error "404") 5).syncStatus = SyncStatus.idle := by
  have h := import_failure_atomic { initialAppState with openApiUrl := "https://u" }
    "404" 5 (by decide)
  exact ⟨h.1, h.2.2.1, h.2.2.2.1⟩

/-- Events that touch neither the sync status nor its reset deadline
nor the last-synced stamp leave all three unchanged. -/
theorem appRun_uiOnly_preserves (evs : List AppEvent) (s : AppState)
    (h : ∀ ev ∈ evs, uiOnlyEvent ev = true) :
    (appRun s evs).syncStatus = s.syncStatus ∧
    (appRun s evs).syncTimeout = s.syncTimeout ∧
    (appRun s evs).lastSyncedAt = s.lastSyncedAt := by
  induction evs generalizing s with
  | nil => exact ⟨rfl, rfl, rfl⟩
  | cons ev evs ih =>
    have hev := h ev (List.mem_cons_self ev evs)
    have hrest : ∀ e ∈ evs, uiOnlyEvent e = true := fun e he => h e (List.mem_cons_of_mem _ he)
    have hstep : (appStep s ev).syncStatus = s.syncStatus ∧
        (appStep s ev).syncTimeout = s.syncTimeout ∧
        (appStep s ev).lastSyncedAt = s.lastSyncedAt := by
      cases ev with
      | importAttempt result t => simp [uiOnlyEvent] at hev
      | collectionUpdated col t => simp [uiOnlyEvent] at hev
      | syncTimerFire t => simp [uiOnlyEvent] at hev
      | statusTimerFire t =>
        simp only [appStep]
        split <;> exact ⟨rfl, rfl, rfl⟩
      | editOpenApiUrl url => exact ⟨rfl, rfl, rfl⟩
    have hrun := ih (appStep s ev) hrest
    exact ⟨hrun.1.trans hstep.1, hrun.2.1.trans hstep.2.1, hrun.2.2.trans hstep.2.2⟩

/-- C7: a successful sync (the `collection-updated` event) or a
successful import stores the collection, records `lastSyncedAt`, moves
the sync status to `updated` and arms the fixed `syncResetDelayMs`
display window; events that start no new sync leave the `updated`
status and the armed deadline untouched for the whole window, and when
the window's timer fires the status resets to `idle`. -/
theorem sync_updated_window (s : AppState) (col : Collection) (t : Nat)
    (evs : List AppEvent) (hevs : ∀ ev ∈ evs, uiOnlyEvent ev = true)
    (himp : jsTrim s.openApiUrl ≠ "") :
    ((appStep s (AppEvent.collectionUpdated col t)).syncStatus = SyncStatus.updated ∧
     (appStep s (AppEvent.collectionUpdated col t)).lastSyncedAt = some t ∧
     (appStep s (AppEvent.collectionUpdated col t)).syncTimeout = some (t + syncResetDelayMs) ∧
     (appStep s (AppEvent.collectionUpdated col t)).collections =
       collectionsSet s.collections col.url col ∧
     (appRun (appStep s (AppEvent.collectionUpdated col t)) evs).syncStatus =
       SyncStatus.updated ∧
     (appStep (appRun (appStep s (AppEvent.collectionUpdated col t)) evs)
        (AppEvent.syncTimerFire (t + syncResetDelayMs))).syncStatus = SyncStatus.idle) ∧
    ((appStep s (AppEvent.importAttempt (Except.ok col) t)).syncStatus = SyncStatus.updated ∧
     (appStep s (AppEvent.importAttempt (Except.ok col) t)).lastSyncedAt = some t ∧
     (appStep s (AppEvent.importAttempt (Except.ok col) t)).syncTimeout =
       some (t + syncResetDelayMs) ∧
     (appStep s (AppEvent.importAttempt (Except.ok col) t)).collections =
       collectionsSet s.collections col.url col ∧
     (appRun (appStep s (AppEvent.importAttempt (Except.ok col) t)) evs).syncStatus =
       SyncStatus.updated ∧
     (appStep (appRun (appStep s (AppEvent.importAttempt (Except.ok col) t)) evs)
        (AppEvent.syncTimerFire (t + syncResetDelayMs))).syncStatus = SyncStatus.idle) := by
  have hupd : (appStep s (AppEvent.collectionUpdated col t)).syncStatus = SyncStatus.updated ∧
      (appStep s (AppEvent.collectionUpdated col t)).lastSyncedAt = some t ∧
      (appStep s (AppEvent.collectionUpdated col t)).syncTimeout = some (t + syncResetDelayMs) ∧
      (appStep s (AppEvent.collectionUpdated col t)).collections =
        collectionsSet s.collections col.url col := by
    simp [appStep, collectionUpdatedListener, scheduleSyncReset, showMessage]
  have himpOk : (appStep s (AppEvent.importAttempt (Except.ok col) t)).syncStatus =
        SyncStatus.updated ∧
      (appStep s (AppEvent.importAttempt (Except.ok col) t)).lastSyncedAt = some t ∧
      (appStep s (AppEvent.importAttempt (Except.ok col) t)).syncTimeout =
        some (t + syncResetDelayMs) ∧
      (appStep s (AppEvent.importAttempt (Except.ok col) t)).collections =
        collectionsSet s.collections col.url col := by
    simp only [appStep, importOpenApi]
    rw [if_neg himp]
    simp [scheduleSyncReset, showMessage]
  have hrun1 := appRun_uiOnly_preserves evs (appStep s (AppEvent.collectionUpdated col t)) hevs
  have hrun2 := appRun_uiOnly_preserves evs
    (appStep s (AppEvent.importAttempt (Except.ok col) t)) hevs
  refine ⟨⟨hupd.1, hupd.2.1, hupd.2.2.1, hupd.2.2.2, hrun1.1.trans hupd.1, ?_⟩,
          ⟨himpOk.1, himpOk.2.1, himpOk.2.2.1, himpOk.2.2.2, hrun2.1.trans himpOk.1, ?_⟩⟩
  · have hdl := hrun1.2.1.trans hupd.2.2.1
    simp only [appStep] at hdl ⊢
    rw [if_pos hdl]
  · have hdl := hrun2.2.1.trans himpOk.2.2.1
    simp only [appStep] at hdl ⊢
    rw [if_pos hdl]

/-- C7 witness: a sync success at time 0 in the fresh session, one URL
edit inside the window, then the timer fire at 3500. -/
theorem sync_updated_window_witness :
    (appRun (appStep { initialAppState with openApiUrl := "https://u" }
        (AppEvent.collectionUpdated sampleCollection 0)) [AppEvent.editOpenApiUrl "x"]).syncStatus =
      SyncStatus.updated ∧
    (appStep (appRun (appStep { initialAppState with openApiUrl := "https://u" }
        (AppEvent.collectionUpdated sampleCollection 0)) [AppEvent.editOpenApiUrl "x"])
      (AppEvent.syncTimerFire (0 + syncResetDelayMs))).syncStatus = SyncStatus.idle := by
  have h := sync_updated_window { initialAppState with openApiUrl := "https://u" }
    sampleCollection 0 [AppEvent.editOpenApiUrl "x"] (by decide) (by decide)
  exact ⟨h.1.2.2.2.2.1, h.1.2.2.2.2.2⟩

/-- C9: within a group the Sidebar renders the endpoints in a stable
sort by the locale comparison (`sortByLabel`, case-insensitive via the
lower-cased key) on `endpointSortKey` — the first non-empty of summary,
description, path — and renders the group tags sorted by the same
comparison: the rendered lists are permutations of the declared ones;
under a transitive and total comparator they are pairwise in order;
pairs already in order — in particular ties under the induced
equivalence — keep their relative declaration order (stability). -/
theorem sidebar_sorted_order (cmp : String → String → Int)
    (endpoints : List Endpoint) (groups : List (String × List Endpoint))
    (htrans : ∀ a b c : String,
      sortLE cmp a b = true → sortLE cmp b c = true → sortLE cmp a c = true)
    (htotal : ∀ a b : String, (sortLE cmp a b || sortLE cmp b a) = true) :
    (sortedEndpoints cmp endpoints).Perm endpoints ∧
    (sortedEndpoints cmp endpoints).Pairwise
      (fun a b => sortLE cmp (endpointSortKey a) (endpointSortKey b) = true) ∧
    (∀ a b : Endpoint, sortLE cmp (endpointSortKey a) (endpointSortKey b) = true →
      [a, b].Sublist endpoints → [a, b].Sublist (sortedEndpoints cmp endpoints)) ∧
    (∀ e : Endpoint, endpointSortKey e =
      (if e.summary ≠ "" then e.summary
       else if e.description ≠ "" then e.description
       else e.path).toLower) ∧
    (sortedGroupEntries cmp groups).Perm groups ∧
    (sortedGroupEntries cmp groups).Pairwise
      (fun a b => sortLE cmp a.1 b.1 = true) ∧
    (∀ a b : String × List Endpoint, sortLE cmp a.1 b.1 = true →
      [a, b].Sublist groups → [a, b].Sublist (sortedGroupEntries cmp groups)) := by
  have htransE : ∀ a b c : Endpoint,
      sortLE cmp (endpointSortKey a) (endpointSortKey b) = true →
      sortLE cmp (endpointSortKey b) (endpointSortKey c) = true →
      sortLE cmp (endpointSortKey a) (endpointSortKey c) = true :=
    fun a b c hab hbc => htrans _ _ _ hab hbc
  have htotalE : ∀ a b : Endpoint,
      (sortLE cmp (endpointSortKey a) (endpointSortKey b) ||
       sortLE cmp (endpointSortKey b) (endpointSortKey a)) = true :=
    fun a b => htotal _ _
  have htransG : ∀ a b c : String × List Endpoint,
      sortLE cmp a.1 b.1 = true → sortLE cmp b.1 c.1 = true → sortLE cmp a.1 c.1 = true :=
    fun a b c hab hbc => htrans _ _ _ hab hbc
  have htotalG : ∀ a b : String × List Endpoint,
      (sortLE cmp a.1 b.1 || sortLE cmp b.1 a.1) = true :=
    fun a b => htotal _ _
  refine ⟨List.mergeSort_perm endpoints _,
    List.sorted_mergeSort htransE htotalE endpoints,
    fun a b hab hsub => List.pair_sublist_mergeSort htransE htotalE hab hsub,
    fun e => rfl,
    List.mergeSort_perm groups _,
    List.sorted_mergeSort htransG htotalG groups,
    fun a b hab hsub => List.pair_sublist_mergeSort htransG htotalG hab hsub⟩

/-- C9 witness: the constant comparator (everything compares equal) is
transitive and total; on a two-endpoint group the rendered list is the
declaration order itself (stability at an all-ties comparator). -/
theorem sidebar_sorted_order_witness :
    (sortedEndpoints (fun _ _ => 0) [pingEndpoint, petEndpoint]).Perm
      [pingEndpoint, petEndpoint] ∧
    sortedEndpoints (fun _ _ => 0) [pingEndpoint, petEndpoint] =
      [pingEndpoint, petEndpoint] := by
  have h := sidebar_sorted_order (fun _ _ => 0) [pingEndpoint, petEndpoint] []
    (fun _ _ _ _ _ => rfl) (fun _ _ => rfl)
  refine ⟨h.1, List.mergeSort_of_sorted ?_⟩
  simp [List.pairwise_cons, sortLE, sortByLabel]

/-- C8 counterexample: the schema `"example": null, "default": "fallback"`
declares both an `example` and a `default`, yet the rendered example
cell shows `"fallback"` — the default — while the declared example
itself renders as the empty string: `schema.example ?? schema.default`
lets an explicitly declared `null` example fall through to the default,
so "explicit example always takes priority over default" fails at this
input. -/
theorem example_priority_counterexample :
    Json.getField exampleNullSchema "example" = some Json.null ∧
    Json.getField exampleNullSchema "default" = some (Json.str "fallback") ∧
    (buildSchemaRows (fun _ => none) (Json.obj exampleNullSchema)).head? =
      some (schemaRowOf exampleNullSchema "root" 0 false) ∧
    (schemaRowOf exampleNullSchema "root" 0 false).exampleText = "fallback" ∧
    formatExampleValue (Json.getField exampleNullSchema "example") = "" ∧
    ("fallback" : String) ≠ "" := by
  refine ⟨rfl, rfl, ?_, rfl, rfl, by decide⟩
  show (walkRows exampleNullSchema "root" 0 false).head? =
    some (schemaRowOf exampleNullSchema "root" 0 false)
  rw [walkRows.eq_def]
  rfl

/-- C8 (amended): a non-null explicit `example` always takes priority
over `default` — the rendered example cell equals the formatted example
whatever the default — and `default` is consulted exactly when
`example` is absent or the JSON literal `null`. -/
theorem example_priority_nonnull (fs : List (String × Json)) (j : Json)
    (path : String) (depth : Nat) (required : Bool)
    (hj : Json.getField fs "example" = some j) (hnn : j ≠ Json.null) :
    (schemaRowOf fs path depth required).exampleText = formatExampleValue (some j) ∧
    (walkRows fs path depth required).head? = some (schemaRowOf fs path depth required) ∧
    (∀ (fs2 : List (String × Json)) (path2 : String) (depth2 : Nat) (req2 : Bool),
      (Json.getField fs2 "example" = none ∨ Json.getField fs2 "example" = some Json.null) →
      (schemaRowOf fs2 path2 depth2 req2).exampleText =
        formatExampleValue (jsNullish (Json.getField fs2 "default") (some (Json.str "")))) := by
  refine ⟨?_, ?_, ?_⟩
  · simp only [schemaRowOf, hj]
    cases j with
    | null => exact absurd rfl hnn
    | bool b => rfl
    | num n => rfl
    | str s => rfl
    | arr xs => rfl
    | obj fs3 => rfl
  · rw [walkRows.eq_def]
    rfl
  · intro fs2 path2 depth2 req2 hcase
    rcases hcase with hc | hc <;> simp [schemaRowOf, hc, jsNullish]

/-- C8 (amended) witness: with `example: "E"` and `default: "D"` the
rendered example cell is `"E"`. -/
theorem example_priority_nonnull_witness :
    (schemaRowOf [("example", Json.str "E"), ("default", Json.str "D")]
        "root" 0 false).exampleText = formatExampleValue (some (Json.str "E")) :=
  (example_priority_nonnull [("example", Json.str "E"), ("default", Json.str "D")]
    (Json.str "E") "root" 0 false rfl (fun h => Json.noConfusion h)).1
